import Mathlib

/-!
Shallow embedding of `src/zarr_to_mrc.py` (mrc-to-zarr converter).

The Python module has three functions:
* `slice_along_z_dim(arr_shape, step)` — the slab planner;
* `generate_multiscales_metadata(ds_name, voxel_size, translation, units, axes)`
  — the multiscale metadata builder;
* `store_mrc_to_zarr(src_path, dest_path, scale, translation, axes, units)`
  — the streaming copier.

Conventions of the embedding:
* Python integers are `Int`; array shapes are triples `Int × Int × Int`
  (the source volumes are 3-dimensional).
* Python floats in the metadata lists carry no arithmetic in the source
  (they are passed through verbatim into the descriptor), so they are
  modelled by `ℚ`; only structural equality of the lists matters.
* Array element values carry no arithmetic either (the copy loop moves
  them bit-for-bit), so the element type is an arbitrary `α` and arrays
  are total functions `Int → Int → Int → α` on coordinates.
* A Python function that can raise is embedded as `Except String`.
-/

namespace MrcToZarr

/-- Number of elements of Python `range(0, stop, step)`.
For `step > 0` this is `max 0 ⌈stop / step⌉`, for `step < 0` it is
`max 0 ⌈stop / step⌉` as well (mirrored), and `step = 0` never reaches
this function (the caller raises first). -/
def pyRangeLen (stop step : Int) : Nat :=
  if 0 < step then ((max stop 0 + step - 1) / step).toNat
  else if step < 0 then ((max (-stop) 0 + (-step) - 1) / (-step)).toNat
  else 0

/-- The value sequence of Python `range(0, stop, step)` for `step ≠ 0`:
`0, step, 2*step, ...`. -/
def pyRange (stop step : Int) : List Int :=
  (List.range (pyRangeLen stop step)).map (fun (k : Nat) => (k : Int) * step)

/-- Body of the loop in `slice_along_z_dim`: for each `sl` produced by
`range(0, z_len, step)`, append `slice(sl, sl+step)` when
`sl + step < z_len`, else `slice(sl, z_len)`.  A Python `slice(a, b)`
is modelled as the pair `(a, b)`. -/
def slabPlan (z_len step : Int) : List (Int × Int) :=
  (pyRange z_len step).map
    (fun sl => if sl + step < z_len then (sl, sl + step) else (sl, z_len))

/-- Embedding of `slice_along_z_dim(arr_shape, step)`.
`z_len = arr_shape[0]`; the loop iterates over `range(0, z_len, step)`,
which raises `ValueError` when `step == 0` and otherwise yields the
slab list.  No other validation is present in the source. -/
def slice_along_z_dim (arr_shape : Int × Int × Int) (step : Int) :
    Except String (List (Int × Int)) :=
  if step = 0 then Except.error "range() arg 3 must not be zero"
  else Except.ok (slabPlan arr_shape.1 step)

/-- One entry of the `"axes"` list: `{"name": axis, "type": "space", "unit": unit}`. -/
structure AxisDescriptor where
  name : String
  type : String
  unit : String
  deriving DecidableEq, Repr

/-- One coordinate transform dict: either `{"scale": v, "type": "scale"}`
or `{"translation": v, "type": "translation"}`. -/
inductive CoordinateTransformation where
  | scale (values : List ℚ)
  | translation (values : List ℚ)
  deriving DecidableEq, Repr

/-- One entry of the `"datasets"` list. -/
structure DatasetEntry where
  coordinateTransformations : List CoordinateTransformation
  path : String
  deriving DecidableEq, Repr

/-- The single element of the `"multiscales"` list. -/
structure MultiscaleEntry where
  axes : List AxisDescriptor
  coordinateTransformations : List CoordinateTransformation
  datasets : List DatasetEntry
  name : String
  version : String
  deriving DecidableEq, Repr

/-- The attribute document `z_attrs` (a dict with the one key `"multiscales"`). -/
structure ZAttrs where
  multiscales : List MultiscaleEntry
  deriving DecidableEq, Repr

/-- Embedding of `generate_multiscales_metadata(ds_name, voxel_size,
translation, units, axes)`: pairs `axes` with `units` by `zip`, emits one
fixed identity top-level scale transform, one dataset entry carrying
`voxel_size` and `translation` verbatim, empty name and version `"0.4"`. -/
def generate_multiscales_metadata (ds_name : String) (voxel_size : List ℚ)
    (translation : List ℚ) (units : List String) (axes : List String) : ZAttrs :=
  { multiscales := [{
      axes := (axes.zip units).map
        (fun au => { name := au.1, type := "space", unit := au.2 }),
      coordinateTransformations := [CoordinateTransformation.scale [1, 1, 1]],
      datasets := [{
        coordinateTransformations :=
          [CoordinateTransformation.scale voxel_size,
           CoordinateTransformation.translation translation],
        path := ds_name }],
      name := "",
      version := "0.4" }] }

/-- The source volume as exposed by `mrcfile.mmap(src_path).data`:
a shape, a dtype tag, and the element at each coordinate. -/
structure Volume (α : Type) where
  shape : Int × Int × Int
  dtype : String
  data : Int → Int → Int → α

/-- The destination array created by `z_root.require_dataset(...)`. -/
structure ZarrArray (α : Type) where
  shape : Int × Int × Int
  chunks : Int × Int × Int
  dtype : String
  data : Int → Int → Int → α

/-- Observable I/O events of one run, in program order: a slab write
`z_arr[sl] = large_mrc.data[sl]`, or the final attribute write
`z_root.attrs['multiscales'] = ...`. -/
inductive Event where
  | slab (start stop : Int)
  | attrs
  deriving DecidableEq, Repr

/-- Axis-0 start coordinate of a slab-write event. -/
def Event.startOf : Event → Option Int
  | Event.slab s _ => some s
  | Event.attrs => none

/-- Whether an event is a slab write. -/
def Event.isSlab : Event → Bool
  | Event.slab _ _ => true
  | Event.attrs => false

/-- The state after a successful run: the destination array, the root
attribute document, and the ordered trace of write events. -/
structure RunResult (α : Type) where
  arr : ZarrArray α
  attrs : ZAttrs
  events : List Event

/-- Effect of `z_arr[sl] = large_mrc.data[sl]` on the destination
contents: every row `i` with `sl.start ≤ i < sl.stop` (all `j`, `k`)
is overwritten with the source value at the same coordinates. -/
def writeSlab {α : Type} (srcData : Int → Int → Int → α)
    (dest : Int → Int → Int → α) (sl : Int × Int) : Int → Int → Int → α :=
  fun i j k => if sl.1 ≤ i ∧ i < sl.2 then srcData i j k else dest i j k

/-- Embedding of `store_mrc_to_zarr`.  Paths are abstracted away: the
opened source is `src`, and `init` is the destination contents before
the run (`require_dataset` creates or reuses the array).  The chunk
shape is the fixed `(128,)*ndim`; the slab step is `z_arr.chunks[0]`;
slabs are copied in order by the `for` loop; the multiscale metadata is
attached last. -/
def store_mrc_to_zarr {α : Type} (src : Volume α) (init : Int → Int → Int → α)
    (scale : List ℚ) (translation : List ℚ) (axes : List String)
    (units : List String) : Except String (RunResult α) :=
  let chunks : Int × Int × Int := (128, 128, 128)
  let ds_name := "s0"
  match slice_along_z_dim src.shape chunks.1 with
  | Except.error e => Except.error e
  | Except.ok slices =>
    let finalData := slices.foldl (fun d sl => writeSlab src.data d sl) init
    let z_attrs := generate_multiscales_metadata ds_name scale translation units axes
    Except.ok {
      arr := { shape := src.shape, chunks := chunks,
               dtype := src.dtype, data := finalData },
      attrs := z_attrs,
      events := slices.map (fun sl => Event.slab sl.1 sl.2) ++ [Event.attrs] }

/-- The list of integers in `[a, b)`, used to express slab unions. -/
def intRange (a b : Int) : List Int :=
  (List.range (b - a).toNat).map (fun (n : Nat) => a + (n : Int))

end MrcToZarr

namespace MrcToZarr

/-! ### Helper lemmas about the slab plan -/

/-- Closed form of one slab: the `k`-th loop iteration sees `sl = k * step`. -/
def slabOf (z_len step : Int) (k : Nat) : Int × Int :=
  if (k : Int) * step + step < z_len then ((k : Int) * step, (k : Int) * step + step)
  else ((k : Int) * step, z_len)

lemma slabPlan_eq (z step : Int) :
    slabPlan z step = (List.range (pyRangeLen z step)).map (slabOf z step) := by
  unfold slabPlan pyRange slabOf
  rw [List.map_map]
  rfl

lemma pyRangeLen_cast (z step : Int) (hstep : 0 < step) (hz : 0 ≤ z) :
    (pyRangeLen z step : Int) = (z + step - 1) / step := by
  have hmax : max z 0 = z := max_eq_left hz
  have h0 : (0 : Int) ≤ (z + step - 1) / step := Int.ediv_nonneg (by omega) hstep.le
  simp only [pyRangeLen, if_pos hstep, hmax]
  exact Int.toNat_of_nonneg h0

lemma pyRangeLen_spec (z step : Int) (hstep : 0 < step) (hz : 0 < z) :
    ((pyRangeLen z step : Int) - 1) * step < z ∧ z ≤ (pyRangeLen z step : Int) * step := by
  rw [pyRangeLen_cast z step hstep hz.le]
  set c := (z + step - 1) / step with hc
  have hdecomp : step * c + (z + step - 1) % step = z + step - 1 :=
    Int.ediv_add_emod _ _
  have hr0 : 0 ≤ (z + step - 1) % step := Int.emod_nonneg _ (by omega)
  have hr1 : (z + step - 1) % step < step := Int.emod_lt_of_pos _ hstep
  constructor
  · nlinarith [hdecomp, hr0]
  · nlinarith [hdecomp, hr1]

lemma pyRangeLen_of_nonpos (z step : Int) (hstep : 0 < step) (hz : z ≤ 0) :
    pyRangeLen z step = 0 := by
  have hmax : max z 0 = 0 := max_eq_right hz
  have hdiv : (0 + step - 1) / step = 0 := Int.ediv_eq_zero_of_lt (by omega) (by omega)
  simp only [pyRangeLen, if_pos hstep, hmax, hdiv, Int.toNat_zero]

lemma intRange_eq_nil (a b : Int) (h : b ≤ a) : intRange a b = [] := by
  simp [intRange, Int.toNat_of_nonpos (by omega : b - a ≤ 0)]

lemma mem_intRange {x a b : Int} : x ∈ intRange a b ↔ a ≤ x ∧ x < b := by
  simp only [intRange, List.mem_map, List.mem_range]
  constructor
  · rintro ⟨n, hn, rfl⟩
    omega
  · rintro ⟨h1, h2⟩
    exact ⟨(x - a).toNat, by omega, by omega⟩

lemma intRange_append (a b c : Int) (hab : a ≤ b) (hbc : b ≤ c) :
    intRange a b ++ intRange b c = intRange a c := by
  unfold intRange
  have h1 : (c - a).toNat = (b - a).toNat + (c - b).toNat := by omega
  rw [h1, List.range_add, List.map_append, List.map_map]
  congr 1
  apply List.map_congr_left
  intro n hn
  simp only [Function.comp_apply]
  omega

lemma flatten_aux (step : Int) (hstep : 0 < step) :
    ∀ (n : Nat) (z : Int), ((n : Int) - 1) * step < z → z ≤ (n : Int) * step →
      ((List.range n).map (slabOf z step)).flatMap (fun sl => intRange sl.1 sl.2) =
        intRange 0 z := by
  intro n
  induction n with
  | zero =>
    intro z h1 h2
    simp only [List.range_zero, List.map_nil, List.flatMap_nil]
    exact (intRange_eq_nil 0 z (by simpa using h2)).symm
  | succ n ih =>
    intro z h1 h2
    have hn_lt : (n : Int) * step < z := by push_cast at h1; linarith
    have hz_le : z ≤ (n : Int) * step + step := by push_cast at h2; linarith
    rw [List.range_succ, List.map_append, List.flatMap_append]
    have hlast : slabOf z step n = ((n : Int) * step, z) := by
      unfold slabOf
      rw [if_neg (not_lt.mpr hz_le)]
    have hpref : (List.range n).map (slabOf z step) =
        (List.range n).map (slabOf ((n : Int) * step) step) := by
      apply List.map_congr_left
      intro k hk
      rw [List.mem_range] at hk
      have hk1 : (k : Int) + 1 ≤ (n : Int) := by exact_mod_cast hk
      have hks : (k : Int) * step + step ≤ (n : Int) * step := by nlinarith
      unfold slabOf
      by_cases hcase : (k : Int) * step + step < (n : Int) * step
      · rw [if_pos (lt_of_lt_of_le hcase hn_lt.le), if_pos hcase]
      · have heq : (k : Int) * step + step = (n : Int) * step :=
          le_antisymm hks (not_lt.mp hcase)
        rw [if_pos (by rw [heq]; exact hn_lt), if_neg hcase, heq]
    have hnn : (0 : Int) ≤ (n : Int) * step :=
      mul_nonneg (Int.natCast_nonneg n) hstep.le
    rw [hpref, ih ((n : Int) * step) (by nlinarith) le_rfl]
    simp only [List.map_cons, List.map_nil, List.flatMap_cons, List.flatMap_nil,
      List.append_nil, hlast]
    exact intRange_append 0 ((n : Int) * step) z hnn hn_lt.le

lemma slabPlan_flatten (z step : Int) (hstep : 0 < step) :
    (slabPlan z step).flatMap (fun sl => intRange sl.1 sl.2) = intRange 0 z := by
  rw [slabPlan_eq]
  rcases le_or_lt z 0 with hz | hz
  · rw [pyRangeLen_of_nonpos z step hstep hz]
    simp [intRange_eq_nil 0 z hz]
  · obtain ⟨h1, h2⟩ := pyRangeLen_spec z step hstep hz
    exact flatten_aux step hstep _ z h1 h2

lemma slabPlan_covers (z step i : Int) (hstep : 0 < step) (h0 : 0 ≤ i) (h1 : i < z) :
    ∃ sl ∈ slabPlan z step, sl.1 ≤ i ∧ i < sl.2 := by
  have hmem : i ∈ (slabPlan z step).flatMap (fun sl => intRange sl.1 sl.2) := by
    rw [slabPlan_flatten z step hstep]
    exact mem_intRange.mpr ⟨h0, h1⟩
  rw [List.mem_flatMap] at hmem
  obtain ⟨sl, hsl, hm⟩ := hmem
  exact ⟨sl, hsl, mem_intRange.mp hm⟩

lemma slabOf_fst (z step : Int) (k : Nat) : (slabOf z step k).1 = (k : Int) * step := by
  unfold slabOf
  split <;> rfl

lemma slabOf_snd_le (z step : Int) (k : Nat) :
    (slabOf z step k).2 ≤ (k : Int) * step + step := by
  unfold slabOf
  split
  · exact le_rfl
  · next h => exact le_of_not_lt h

lemma slabPlan_pairwise (z step : Int) (hstep : 0 < step) :
    (slabPlan z step).Pairwise (fun a b => a.1 < b.1 ∧ a.2 ≤ b.1) := by
  rw [slabPlan_eq, List.pairwise_map]
  refine List.Pairwise.imp ?_ (List.pairwise_lt_range _)
  intro a b hab
  have hab' : (a : Int) + 1 ≤ (b : Int) := by exact_mod_cast hab
  constructor
  · rw [slabOf_fst, slabOf_fst]
    have : (a : Int) < b := by exact_mod_cast hab
    exact mul_lt_mul_of_pos_right this hstep
  · have h1 : (slabOf z step a).2 ≤ (a : Int) * step + step := slabOf_snd_le z step a
    have h2 : (a : Int) * step + step ≤ (b : Int) * step := by nlinarith
    rw [slabOf_fst]
    linarith

lemma slabPlan_chain (z step : Int) (hstep : 0 < step) :
    (slabPlan z step).Chain' (fun a b => a.2 = b.1) := by
  rcases le_or_lt z 0 with hz | hz
  · rw [slabPlan_eq, pyRangeLen_of_nonpos z step hstep hz]
    simp
  · rw [slabPlan_eq, List.chain'_iff_get]
    intro i hi
    obtain ⟨h1, _⟩ := pyRangeLen_spec z step hstep hz
    simp only [List.length_map, List.length_range] at hi
    simp only [List.get_eq_getElem, List.getElem_map, List.getElem_range]
    have hi1 : (i : Int) + 1 ≤ (pyRangeLen z step : Int) - 1 := by omega
    have hlt : ((i : Int) + 1) * step < z := by
      have hle : ((i : Int) + 1) * step ≤ ((pyRangeLen z step : Int) - 1) * step :=
        mul_le_mul_of_nonneg_right hi1 hstep.le
      linarith
    have hcond : (i : Int) * step + step < z := by linarith [hlt]
    rw [slabOf_fst]
    unfold slabOf
    rw [if_pos hcond]
    push_cast
    ring

end MrcToZarr

namespace MrcToZarr

/-! ### Helper lemmas about the copy loop and the run -/

lemma foldl_write_preserve {α : Type} (srcData : Int → Int → Int → α) (i j k : Int) :
    ∀ (slices : List (Int × Int)) (d : Int → Int → Int → α),
      d i j k = srcData i j k →
      (slices.foldl (fun d sl => writeSlab srcData d sl) d) i j k = srcData i j k := by
  intro slices
  induction slices with
  | nil =>
    intro d h
    simpa using h
  | cons sl t ih =>
    intro d h
    simp only [List.foldl_cons]
    apply ih
    simp only [writeSlab]
    split
    · rfl
    · exact h

lemma foldl_write {α : Type} (srcData : Int → Int → Int → α) (i j k : Int) :
    ∀ (slices : List (Int × Int)) (d : Int → Int → Int → α),
      (∃ sl ∈ slices, sl.1 ≤ i ∧ i < sl.2) →
      (slices.foldl (fun d sl => writeSlab srcData d sl) d) i j k = srcData i j k := by
  intro slices
  induction slices with
  | nil =>
    rintro d ⟨sl, hsl, -⟩
    simp at hsl
  | cons sl t ih =>
    rintro d ⟨sl', hsl', hcov⟩
    simp only [List.mem_cons] at hsl'
    rcases hsl' with rfl | hmem
    · simp only [List.foldl_cons]
      apply foldl_write_preserve
      simp only [writeSlab]
      rw [if_pos hcov]
    · simp only [List.foldl_cons]
      exact ih _ ⟨sl', hmem, hcov⟩

lemma pyRangeLen_one (z step : Int) (hz : 0 < z) (hzs : z ≤ step) :
    pyRangeLen z step = 1 := by
  have hstep : 0 < step := lt_of_lt_of_le hz hzs
  obtain ⟨h1, h2⟩ := pyRangeLen_spec z step hstep hz
  set n := pyRangeLen z step with hn
  have hn1 : 1 ≤ n := by
    rcases Nat.eq_zero_or_pos n with h0 | h0
    · rw [h0] at h2
      simp at h2
      omega
    · exact h0
  have hn2 : n < 2 := by
    by_contra hc
    push_neg at hc
    have hc' : (2 : Int) ≤ (n : Int) := by exact_mod_cast hc
    have : 1 * step ≤ ((n : Int) - 1) * step :=
      mul_le_mul_of_nonneg_right (by linarith) hstep.le
    nlinarith
  omega

lemma slabPlan_single (z step : Int) (hz : 0 < z) (hzs : z ≤ step) :
    slabPlan z step = [(0, z)] := by
  rw [slabPlan_eq, pyRangeLen_one z step hz hzs,
    show List.range 1 = [0] from rfl]
  simp only [List.map_cons, List.map_nil, slabOf, Nat.cast_zero,
    zero_mul, zero_add]
  rw [if_neg (not_lt.mpr hzs)]

lemma slabPlan_nil (z step : Int) (hz : z ≤ 0) (hstep : 0 < step) :
    slabPlan z step = [] := by
  rw [slabPlan_eq, pyRangeLen_of_nonpos z step hstep hz]
  rfl

lemma slice_along_z_dim_128 (s : Int × Int × Int) :
    slice_along_z_dim s 128 = Except.ok (slabPlan s.1 128) := by
  simp [slice_along_z_dim]

lemma store_eq {α : Type} (src : Volume α) (init : Int → Int → Int → α)
    (scale translation : List ℚ) (axes units : List String) :
    store_mrc_to_zarr src init scale translation axes units =
      Except.ok {
        arr := { shape := src.shape, chunks := (128, 128, 128), dtype := src.dtype,
                 data := (slabPlan src.shape.1 128).foldl
                   (fun d sl => writeSlab src.data d sl) init },
        attrs := generate_multiscales_metadata "s0" scale translation units axes,
        events := (slabPlan src.shape.1 128).map (fun sl => Event.slab sl.1 sl.2)
          ++ [Event.attrs] } := by
  simp only [store_mrc_to_zarr, slice_along_z_dim_128]

end MrcToZarr

namespace MrcToZarr

/-! ### Claim theorems -/

/-- C2: Slab coverage.  For every `extent > 0` and `step > 0`,
`slice_along_z_dim` returns (without failing) a slab sequence that is a
partition of `[0, extent)`: slabs are strictly increasing and pairwise
disjoint, gap-free (each slab's end is the next slab's start), and the
concatenation of their coordinate ranges is exactly `[0, extent)`. -/
theorem slab_coverage (extent step d1 d2 : Int) (hex : 0 < extent) (hst : 0 < step) :
    slice_along_z_dim (extent, d1, d2) step = Except.ok (slabPlan extent step) ∧
    (slabPlan extent step).Pairwise (fun a b => a.1 < b.1 ∧ a.2 ≤ b.1) ∧
    (slabPlan extent step).Chain' (fun a b => a.2 = b.1) ∧
    (slabPlan extent step).flatMap (fun sl => intRange sl.1 sl.2) = intRange 0 extent := by
  refine ⟨?_, slabPlan_pairwise extent step hst, slabPlan_chain extent step hst,
    slabPlan_flatten extent step hst⟩
  simp [slice_along_z_dim, hst.ne']

theorem slab_coverage_witness :
    slice_along_z_dim (10, 20, 30) 3 = Except.ok (slabPlan 10 3) ∧
    (slabPlan 10 3).Pairwise (fun a b => a.1 < b.1 ∧ a.2 ≤ b.1) ∧
    (slabPlan 10 3).Chain' (fun a b => a.2 = b.1) ∧
    (slabPlan 10 3).flatMap (fun sl => intRange sl.1 sl.2) = intRange 0 10 :=
  slab_coverage 10 3 20 30 (by decide) (by decide)

/-- C8: Slab edge cases.  `slice_along_z_dim` with extent 10 and step 3
returns exactly `[0,3),[3,6),[6,9),[9,10)`; with extent 5 and step 10 it
returns exactly `[0,5)`; in general `step ≥ extent > 0` yields the single
slab `[0, extent)`; extent 0 yields the empty sequence. -/
theorem slab_edge_cases :
    slice_along_z_dim (10, 64, 64) 3 = Except.ok [(0, 3), (3, 6), (6, 9), (9, 10)] ∧
    slice_along_z_dim (5, 64, 64) 10 = Except.ok [(0, 5)] ∧
    slice_along_z_dim (0, 64, 64) 4 = Except.ok [] ∧
    ∀ extent step d1 d2 : Int, 0 < extent → extent ≤ step →
      slice_along_z_dim (extent, d1, d2) step = Except.ok [(0, extent)] := by
  refine ⟨by rfl, by rfl, by rfl, ?_⟩
  intro extent step d1 d2 hex hes
  have hst : 0 < step := lt_of_lt_of_le hex hes
  simp [slice_along_z_dim, hst.ne', slabPlan_single extent step hex hes]

theorem slab_edge_cases_witness :
    slice_along_z_dim (7, 9, 9) 9 = Except.ok [(0, 7)] :=
  slab_edge_cases.2.2.2 7 9 9 9 (by decide) (by decide)

/-- C10: The output of `slice_along_z_dim` depends only on the first
component of `arr_shape` and on `step`: two shape triples with equal
first component give identical results for every `step`. -/
theorem slab_plan_depends_only_on_first_axis (s t : Int × Int × Int) (step : Int)
    (h : s.1 = t.1) : slice_along_z_dim s step = slice_along_z_dim t step := by
  simp only [slice_along_z_dim, h]

theorem slab_plan_depends_only_on_first_axis_witness :
    slice_along_z_dim (10, 1, 2) 3 = slice_along_z_dim (10, 500, 900) 3 :=
  slab_plan_depends_only_on_first_axis (10, 1, 2) (10, 500, 900) 3 rfl

/-- C6 counterexample: the claim says `slice_along_z_dim` fails for every
input with `extent ≤ 0` or `step ≤ 0`; in fact `extent = 0` with `step = 4`
returns the empty list normally, and `extent = 5` with `step = -1` also
returns normally. -/
theorem slab_validation_cex :
    slice_along_z_dim (0, 7, 7) 4 = Except.ok [] ∧
    slice_along_z_dim (5, 7, 7) (-1) = Except.ok [] := ⟨rfl, rfl⟩

/-- C6 (amended): `slice_along_z_dim` performs no argument validation of
its own; it fails (with the `ValueError` raised by `range`) exactly when
`step = 0`, returns normally for every `step ≠ 0` (in particular for all
positive inputs), and returns the empty list when `extent ≤ 0` and
`step > 0`. -/
theorem slab_error_iff_step_zero (arr_shape : Int × Int × Int) (step : Int) :
    (step = 0 → slice_along_z_dim arr_shape step =
      Except.error "range() arg 3 must not be zero") ∧
    (step ≠ 0 → slice_along_z_dim arr_shape step =
      Except.ok (slabPlan arr_shape.1 step)) ∧
    (arr_shape.1 ≤ 0 → 0 < step → slice_along_z_dim arr_shape step = Except.ok []) := by
  refine ⟨fun h => by simp [slice_along_z_dim, h],
    fun h => by simp [slice_along_z_dim, h], fun h1 h2 => ?_⟩
  simp [slice_along_z_dim, h2.ne', slabPlan_nil arr_shape.1 step h1 h2]

theorem slab_error_iff_step_zero_witness :
    slice_along_z_dim (10, 2, 2) 0 = Except.error "range() arg 3 must not be zero" ∧
    slice_along_z_dim (10, 2, 2) 3 = Except.ok (slabPlan 10 3) ∧
    slice_along_z_dim (-4, 2, 2) 5 = Except.ok [] :=
  ⟨(slab_error_iff_step_zero (10, 2, 2) 0).1 rfl,
   (slab_error_iff_step_zero (10, 2, 2) 3).2.1 (by decide),
   (slab_error_iff_step_zero (-4, 2, 2) 5).2.2 (by decide) (by decide)⟩

/-- C5: Metadata shape invariant.  For inputs whose four list arguments
all have length 3, `generate_multiscales_metadata` produces exactly one
multiscale entry with exactly 3 axis descriptors, exactly one dataset
entry, version `"0.4"`, empty name, the fixed identity top-level scale
transform `[1, 1, 1]`, and the given scale and translation verbatim in
the dataset-level transform. -/
theorem metadata_shape_invariant (ds_name : String) (voxel_size translation : List ℚ)
    (units axes : List String) (ha : axes.length = 3) (hu : units.length = 3)
    (hv : voxel_size.length = 3) (ht : translation.length = 3) :
    ((generate_multiscales_metadata ds_name voxel_size translation units axes).multiscales.map
      (fun e => (e.axes.length, e.datasets.length, e.version, e.name,
        e.coordinateTransformations,
        e.datasets.map DatasetEntry.coordinateTransformations))) =
    [(3, 1, "0.4", "", [CoordinateTransformation.scale [1, 1, 1]],
      [[CoordinateTransformation.scale voxel_size,
        CoordinateTransformation.translation translation]])] := by
  simp [generate_multiscales_metadata, ha, hu]

theorem metadata_shape_invariant_witness :
    ((generate_multiscales_metadata "s0" [4, 5, 6] [7, 8, 9] ["nm", "nm", "nm"]
      ["z", "y", "x"]).multiscales.map
      (fun e => (e.axes.length, e.datasets.length, e.version, e.name,
        e.coordinateTransformations,
        e.datasets.map DatasetEntry.coordinateTransformations))) =
    [(3, 1, "0.4", "", [CoordinateTransformation.scale [1, 1, 1]],
      [[CoordinateTransformation.scale [4, 5, 6],
        CoordinateTransformation.translation [7, 8, 9]]])] :=
  metadata_shape_invariant "s0" [4, 5, 6] [7, 8, 9] ["nm", "nm", "nm"]
    ["z", "y", "x"] rfl rfl rfl rfl

/-- C9: When `axes` and `units` have different lengths no error is
raised: `generate_multiscales_metadata` is total, it builds exactly
`min (length axes) (length units)` axis descriptors (`zip` silently
truncates the longer list), and the scale and translation lists are
embedded verbatim in the dataset-level transform whatever their lengths. -/
theorem metadata_truncation (ds_name : String) (voxel_size translation : List ℚ)
    (units axes : List String) :
    ((generate_multiscales_metadata ds_name voxel_size translation units axes).multiscales.map
      (fun e => (e.axes.length,
        e.datasets.map DatasetEntry.coordinateTransformations))) =
    [(min axes.length units.length,
      [[CoordinateTransformation.scale voxel_size,
        CoordinateTransformation.translation translation]])] := by
  simp [generate_multiscales_metadata]

/-- C7 counterexample: the claim says
`build("s0", ["z","y"], ["nm","nm","nm"], [1,1,1], [0,0,0])` fails with
`InvalidArgument`; in fact the call returns a descriptor normally, with
the two axis descriptors obtained by zipping `["z","y"]` against the
three units. -/
theorem length_mismatch_no_failure :
    ((generate_multiscales_metadata "s0" [1, 1, 1] [0, 0, 0] ["nm", "nm", "nm"]
      ["z", "y"]).multiscales.map (fun e => e.axes)) =
    [[{ name := "z", type := "space", unit := "nm" },
      { name := "y", type := "space", unit := "nm" }]] := rfl

/-- C7 (amended): `generate_multiscales_metadata` does not validate the
lengths of its list arguments and never fails; the mismatched call
`build("s0", ["z","y"], ["nm","nm","nm"], [1,1,1], [0,0,0])` returns the
full descriptor with the axis list truncated to the two zipped pairs and
the scale and translation embedded verbatim. -/
theorem length_mismatch_truncation :
    generate_multiscales_metadata "s0" [1, 1, 1] [0, 0, 0] ["nm", "nm", "nm"]
      ["z", "y"] =
    { multiscales := [{
        axes := [{ name := "z", type := "space", unit := "nm" },
                 { name := "y", type := "space", unit := "nm" }],
        coordinateTransformations := [CoordinateTransformation.scale [1, 1, 1]],
        datasets := [{
          coordinateTransformations :=
            [CoordinateTransformation.scale [1, 1, 1],
             CoordinateTransformation.translation [0, 0, 0]],
          path := "s0" }],
        name := "",
        version := "0.4" }] } := rfl

/-- C3: Round-trip shape/dtype.  After a successful conversion of a
source of shape `(256, 64, 64)` (the chunk edge is the fixed 128), the
destination array's shape is `(256, 64, 64)`, its dtype is the source's
dtype, and its chunk shape is `(128, 128, 128)`. -/
theorem round_trip_shape_dtype (α : Type) (src : Volume α)
    (init : Int → Int → Int → α) (scale translation : List ℚ)
    (axes units : List String) (h : src.shape = (256, 64, 64)) :
    (store_mrc_to_zarr src init scale translation axes units).map
      (fun r => (r.arr.shape, r.arr.dtype, r.arr.chunks)) =
    Except.ok ((256, 64, 64), src.dtype, (128, 128, 128)) := by
  rw [store_eq]
  simp [Except.map, h]

theorem round_trip_shape_dtype_witness :
    (store_mrc_to_zarr (⟨(256, 64, 64), "float32", fun _ _ _ => (0 : Int)⟩ : Volume Int)
      (fun _ _ _ => 0) [1, 1, 1] [0, 0, 0] ["z", "y", "x"] ["nm", "nm", "nm"]).map
      (fun r => (r.arr.shape, r.arr.dtype, r.arr.chunks)) =
    Except.ok ((256, 64, 64), "float32", (128, 128, 128)) :=
  round_trip_shape_dtype Int ⟨(256, 64, 64), "float32", fun _ _ _ => 0⟩
    (fun _ _ _ => 0) [1, 1, 1] [0, 0, 0] ["z", "y", "x"] ["nm", "nm", "nm"] rfl

/-- C1: Content fidelity.  For every source volume and every coordinate
`(i, j, k)` within the volume's shape bounds, a run of
`store_mrc_to_zarr` succeeds and the value stored at `(i, j, k)` in the
destination array equals the source value at `(i, j, k)` exactly
(the element type is arbitrary, so equality is exact for integer and
bit-exact for floating element types). -/
theorem content_fidelity (α : Type) (src : Volume α) (init : Int → Int → Int → α)
    (scale translation : List ℚ) (axes units : List String) (i j k : Int)
    (hi0 : 0 ≤ i) (hi1 : i < src.shape.1) (hj0 : 0 ≤ j) (hj1 : j < src.shape.2.1)
    (hk0 : 0 ≤ k) (hk1 : k < src.shape.2.2) :
    (store_mrc_to_zarr src init scale translation axes units).map
      (fun r => r.arr.data i j k) = Except.ok (src.data i j k) := by
  rw [store_eq]
  simp only [Except.map]
  congr 1
  exact foldl_write src.data i j k (slabPlan src.shape.1 128) init
    (slabPlan_covers src.shape.1 128 i (by norm_num) hi0 hi1)

theorem content_fidelity_witness :
    (store_mrc_to_zarr (⟨(2, 1, 1), "int8", fun i _ _ => i + 4⟩ : Volume Int)
      (fun _ _ _ => 0) [1, 1, 1] [0, 0, 0] ["z", "y", "x"] ["nm", "nm", "nm"]).map
      (fun r => r.arr.data 1 0 0) = Except.ok 5 :=
  content_fidelity Int ⟨(2, 1, 1), "int8", fun i _ _ => i + 4⟩ (fun _ _ _ => 0)
    [1, 1, 1] [0, 0, 0] ["z", "y", "x"] ["nm", "nm", "nm"] 1 0 0
    (by decide) (by decide) (by decide) (by decide) (by decide) (by decide)

/-- C4: Metadata-after-data ordering.  In every successful run the trace
of write events consists of the slab writes in strictly increasing
axis-0 order followed by exactly one attribute write, which is the last
event; consequently every proper prefix of the trace that contains at
least one but not all slab writes contains no attribute write (the
multiscale key is absent if the run stops there). -/
theorem metadata_after_data (α : Type) (src : Volume α) (init : Int → Int → Int → α)
    (scale translation : List ℚ) (axes units : List String)
    (events t : List Event)
    (h : (store_mrc_to_zarr src init scale translation axes units).map
      RunResult.events = Except.ok events)
    (ht : t <+: events)
    (h1 : 1 ≤ t.countP Event.isSlab)
    (h2 : t.countP Event.isSlab < events.countP Event.isSlab) :
    (events.filterMap Event.startOf).Pairwise (· < ·) ∧
    events.getLast? = some Event.attrs ∧
    events.count Event.attrs = 1 ∧
    Event.attrs ∉ t := by
  rw [store_eq] at h
  simp only [Except.map, Except.ok.injEq] at h
  subst h
  set L := (slabPlan src.shape.1 128).map (fun sl => Event.slab sl.1 sl.2) with hL
  have hAttrsNotL : Event.attrs ∉ L := by
    simp [hL]
  refine ⟨?_, ?_, ?_, ?_⟩
  · have hstarts : (L ++ [Event.attrs]).filterMap Event.startOf =
        (slabPlan src.shape.1 128).map Prod.fst := by
      rw [List.filterMap_append, hL, List.filterMap_map]
      have hco : (Event.startOf ∘ fun (sl : Int × Int) => Event.slab sl.1 sl.2) =
          (some ∘ fun (sl : Int × Int) => sl.1) := rfl
      rw [hco, List.filterMap_eq_map]
      simp [Event.startOf]
    rw [hstarts]
    have hpw := slabPlan_pairwise src.shape.1 128 (by norm_num)
    exact List.pairwise_map.mpr (hpw.imp (fun h => h.1))
  · exact List.getLast?_concat L
  · rw [List.count_append]
    rw [List.count_eq_zero.mpr hAttrsNotL]
    rfl
  · intro hmem
    obtain ⟨r, hr⟩ := ht
    rcases List.append_eq_append_iff.mp hr with ⟨a', ha1, -⟩ | ⟨c', hc1, -⟩
    · exact hAttrsNotL (ha1 ▸ List.mem_append_left a' hmem)
    · have hcount_t : t.countP Event.isSlab =
          L.countP Event.isSlab + c'.countP Event.isSlab := by
        rw [hc1, List.countP_append]
      have hcount_ev : (L ++ [Event.attrs]).countP Event.isSlab =
          L.countP Event.isSlab := by
        simp [List.countP_append, Event.isSlab]
      omega

theorem metadata_after_data_witness :
    (([Event.slab 0 128, Event.slab 128 256, Event.attrs] : List Event).filterMap
      Event.startOf).Pairwise (· < ·) ∧
    ([Event.slab 0 128, Event.slab 128 256, Event.attrs] : List Event).getLast? =
      some Event.attrs ∧
    ([Event.slab 0 128, Event.slab 128 256, Event.attrs] : List Event).count
      Event.attrs = 1 ∧
    Event.attrs ∉ ([Event.slab 0 128] : List Event) :=
  metadata_after_data Int ⟨(256, 64, 64), "uint16", fun _ _ _ => 0⟩ (fun _ _ _ => 0)
    [1, 1, 1] [0, 0, 0] ["z", "y", "x"] ["nm", "nm", "nm"]
    [Event.slab 0 128, Event.slab 128 256, Event.attrs] [Event.slab 0 128]
    (by rfl) (by decide) (by decide) (by decide)

end MrcToZarr
